import Mathlib

/-!
Verification of the natural-language specification of
ai_accessibility_checker.py against a shallow Lean embedding of the code.

The embedding below translates, function by function, the parts of the
source that the claims are about:
  - the response-parsing step of scan_with_ai (code-fence stripping, the
    greedy bracket-span regex, json.loads);
  - find_supported_files (os.walk with pruned directories);
  - export_to_pdf (file name, summary line, per-file issue tables,
    html.escape of the free-text cells, severity colouring);
  - the console table and list renderers in main;
  - the per-file error handling of the scan loop in main;
  - the startup/exit behaviour of the script (credential check, consent
    prompt, empty file set).
Machine strings are modelled as Lean String over their character lists;
JSON values as an inductive type, with json.loads modelled by a fuel-based
recursive-descent parser that follows the JSON grammar accepted by the
Python json module (the deviations, all irrelevant to the claims, are
noted where they occur).
-/

set_option maxRecDepth 8192

namespace AAC

/-! ## Python string primitives -/

/-- Whitespace characters removed by the Python str.strip() default
(the ASCII subset; the full set also holds rarer unicode spaces that
never occur in the strings the claims are about). -/
def pyWsChar (c : Char) : Bool :=
  c == ' ' || c == '\t' || c == '\n' || c == '\r' || c == '\x0b' || c == '\x0c'

/-- str.strip() on the character list. -/
def pyStripChars (cs : List Char) : List Char :=
  ((cs.dropWhile pyWsChar).reverse.dropWhile pyWsChar).reverse

/-- Python str.strip(). -/
def pyStrip (s : String) : String :=
  ⟨pyStripChars s.data⟩

/-- Python str.lower() (ASCII). -/
def pyLower (s : String) : String :=
  ⟨s.data.map Char.toLower⟩

/-- pat is a prefix of s (character lists). -/
def isPrefixList : List Char → List Char → Bool
  | [], _ => true
  | _ :: _, [] => false
  | p :: ps, c :: cs => p == c && isPrefixList ps cs

/-- pat occurs as a contiguous substring of s (character lists). -/
def containsSub (pat : List Char) : List Char → Bool
  | [] => isPrefixList pat []
  | c :: cs => isPrefixList pat (c :: cs) || containsSub pat cs

/-- Python substring membership: pat in s. -/
def strContains (s pat : String) : Bool :=
  containsSub pat.data s.data

/-- Python str.startswith. -/
def strStartsWith (s pre : String) : Bool :=
  isPrefixList pre.data s.data

/-- Python str.endswith. -/
def strEndsWith (s suff : String) : Bool :=
  isPrefixList suff.data.reverse s.data.reverse

/-- Python ", ".join and friends (join of a string list with a separator). -/
def joinWith (sep : String) : List String → String
  | [] => ""
  | [x] => x
  | x :: y :: rest => x ++ sep ++ joinWith sep (y :: rest)

/-- Python enumerate(xs, start). -/
def pyEnumerate (start : Nat) : List α → List (Nat × α)
  | [] => []
  | x :: rest => (start, x) :: pyEnumerate (start + 1) rest

/-- Sequencing of an Option-valued function over a list (models a loop in
which the first failure aborts). -/
def optionMapList (f : α → Option β) : List α → Option (List β)
  | [] => some []
  | a :: rest =>
    match f a, optionMapList f rest with
    | some b, some bs => some (b :: bs)
    | _, _ => none

/-! ## The code-fence stripping regex

scan_with_ai line 203 runs
  re.sub(r"^;;;(json)?|;;;$", "", raw_output, flags=re.MULTILINE)
(three backticks written as ;;; in this comment).  The scan below is the
re.sub left-to-right scan specialised to that pattern: at a line start a
run of three backticks (optionally followed by json) is removed, and
elsewhere three backticks standing immediately before a newline or at the
end of the string are removed.  atStart tracks whether the current scan
position is at a line start of the original string.  Fuel is the length
of the remaining list; every step shortens the list. -/

def fenceSubAux : Nat → Bool → List Char → List Char
  | 0, _, cs => cs
  | fuel + 1, atStart, cs =>
    match cs with
    | [] => []
    | '`' :: '`' :: '`' :: rest =>
      if atStart then
        match rest with
        | 'j' :: 's' :: 'o' :: 'n' :: rest2 => fenceSubAux fuel false rest2
        | _ => fenceSubAux fuel false rest
      else
        match rest with
        | [] => []
        | '\n' :: _ => fenceSubAux fuel false rest
        | _ => '`' :: fenceSubAux fuel false ('`' :: '`' :: rest)
    | c :: rest => c :: fenceSubAux fuel (c == '\n') rest

/-- The re.sub of scan_with_ai line 203. -/
def fenceSub (s : String) : String :=
  ⟨fenceSubAux (s.data.length + 1) true s.data⟩

/-! ## The greedy bracket-span regex

re.search(r"\[.*\]", raw_output, re.DOTALL) finds the leftmost match of a
greedy any-characters run between brackets: it starts at the first
left bracket that is followed (anywhere later) by a right bracket and
extends to the last right bracket of the whole string. -/

/-- Index of the last occurrence of c in cs. -/
def lastIdxOf (cs : List Char) (c : Char) : Option Nat :=
  (cs.reverse.findIdx? (· == c)).map (fun k => cs.length - 1 - k)

/-- The matched span of re.search(r"\[.*\]", s, re.DOTALL), when any. -/
def greedySpan (s : String) : Option String :=
  match s.data.findIdx? (· == '['), lastIdxOf s.data ']' with
  | some l, some r => if l < r then some ⟨(s.data.drop l).take (r - l + 1)⟩ else none
  | _, _ => none

/-! ## JSON values and json.loads -/

/-- JSON values as produced by json.loads.  Numbers are carried as
mantissa and decimal exponent (value = mantissa * 10 ^ exponent); the
int/float distinction of Python is not tracked since no claim compares
numbers beyond integer line numbers.  jnan and jinf model the NaN and
Infinity extensions the Python json module accepts.  Objects carry their
fields in dict insertion order with last-written values, as built by
insertField below. -/
inductive Json where
  | null
  | jbool (b : Bool)
  | jnum (mantissa : Int) (exponent : Int)
  | jnan
  | jinf (neg : Bool)
  | jstr (s : String)
  | jarr (elems : List Json)
  | jobj (fields : List (String × Json))

/-- Python dict insertion: an existing key keeps its position and takes
the new value, a new key is appended. -/
def insertField (fields : List (String × Json)) (k : String) (v : Json) :
    List (String × Json) :=
  match fields with
  | [] => [(k, v)]
  | (k', v') :: rest =>
    if k' == k then (k', v) :: rest else (k', v') :: insertField rest k v

/-- JSON inter-token whitespace (the json module WHITESPACE set). -/
def skipWs : List Char → List Char
  | [] => []
  | c :: rest =>
    if c == ' ' || c == '\t' || c == '\n' || c == '\r' then skipWs rest
    else c :: rest

/-- Hexadecimal digit value. -/
def hexVal? (c : Char) : Option Nat :=
  if '0' ≤ c ∧ c ≤ '9' then some (c.toNat - 48)
  else if 'a' ≤ c ∧ c ≤ 'f' then some (c.toNat - 87)
  else if 'A' ≤ c ∧ c ≤ 'F' then some (c.toNat - 55)
  else none

/-- Body of a JSON string after the opening quote: strict mode of the
json module (raw control characters rejected, the standard escapes and
\uXXXX with surrogate pairs accepted).  Deviation: a lone surrogate
escape, which Python keeps as an unpaired surrogate, is rejected here
because a Lean Char is always a unicode scalar value. -/
def parseStringBody : List Char → List Char → Option (String × List Char)
  | [], _ => none
  | '"' :: rest, acc => some (⟨acc.reverse⟩, rest)
  | '\\' :: 'u' :: h1 :: h2 :: h3 :: h4 :: rest, acc =>
    (match hexVal? h1, hexVal? h2, hexVal? h3, hexVal? h4 with
     | some a, some b, some c, some d =>
       let n := ((a * 16 + b) * 16 + c) * 16 + d
       if n < 0xd800 ∨ 0xe000 ≤ n then
         parseStringBody rest (Char.ofNat n :: acc)
       else if n < 0xdc00 then
         match rest with
         | '\\' :: 'u' :: g1 :: g2 :: g3 :: g4 :: rest2 =>
           (match hexVal? g1, hexVal? g2, hexVal? g3, hexVal? g4 with
            | some a2, some b2, some c2, some d2 =>
              let m := ((a2 * 16 + b2) * 16 + c2) * 16 + d2
              if 0xdc00 ≤ m ∧ m < 0xe000 then
                parseStringBody rest2
                  (Char.ofNat (0x10000 + (n - 0xd800) * 0x400 + (m - 0xdc00)) :: acc)
              else none
            | _, _, _, _ => none)
         | _ => none
       else none
     | _, _, _, _ => none)
  | '\\' :: c :: rest, acc =>
    if c == '"' then parseStringBody rest ('"' :: acc)
    else if c == '\\' then parseStringBody rest ('\\' :: acc)
    else if c == '/' then parseStringBody rest ('/' :: acc)
    else if c == 'b' then parseStringBody rest ('\x08' :: acc)
    else if c == 'f' then parseStringBody rest ('\x0c' :: acc)
    else if c == 'n' then parseStringBody rest ('\n' :: acc)
    else if c == 'r' then parseStringBody rest ('\r' :: acc)
    else if c == 't' then parseStringBody rest ('\t' :: acc)
    else none
  | c :: rest, acc =>
    if c.toNat ≤ 31 then none else parseStringBody rest (c :: acc)

/-- Longest digit prefix. -/
def spanDigits : List Char → List Char × List Char
  | [] => ([], [])
  | c :: rest =>
    if c.isDigit then
      let (ds, r) := spanDigits rest
      (c :: ds, r)
    else ([], c :: rest)

/-- Value of a digit list. -/
def digitsToNat (ds : List Char) : Nat :=
  ds.foldl (fun n c => n * 10 + (c.toNat - 48)) 0

/-- A JSON number token, maximal-munch exactly like the NUMBER_RE of the
json module: -?(0|[1-9][0-9]*)(\.[0-9]+)?([eE][+-]?[0-9]+)?.  An
incomplete fraction or exponent is left unconsumed (the caller then fails
on the leftover text, as the Python scanner does). -/
def parseNumber (cs : List Char) : Option (Json × List Char) :=
  let (neg, cs1) := match cs with
    | '-' :: rest => (true, rest)
    | _ => (false, cs)
  match cs1 with
  | [] => none
  | c :: rest =>
    if c == '0' ∨ c.isDigit then
      let (intDs, afterInt) :=
        if c == '0' then ([c], rest)
        else spanDigits (c :: rest)
      let (fracDs, afterFrac) :=
        match afterInt with
        | '.' :: r2 =>
          match spanDigits r2 with
          | ([], _) => ([], afterInt)
          | (ds, r3) => (ds, r3)
        | _ => ([], afterInt)
      let (expVal, afterExp) :=
        match afterFrac with
        | e :: r4 =>
          if e == 'e' || e == 'E' then
            match r4 with
            | '+' :: r5 =>
              (match spanDigits r5 with
               | ([], _) => (some 0, afterFrac)
               | (ds, r6) => (some ((digitsToNat ds : Int)), r6))
            | '-' :: r5 =>
              (match spanDigits r5 with
               | ([], _) => (some 0, afterFrac)
               | (ds, r6) => (some (-(digitsToNat ds : Int)), r6))
            | _ =>
              (match spanDigits r4 with
               | ([], _) => (some 0, afterFrac)
               | (ds, r6) => (some ((digitsToNat ds : Int)), r6))
          else (some 0, afterFrac)
        | [] => (some 0, afterFrac)
      let mantissa : Nat := digitsToNat (intDs ++ fracDs)
      let m : Int := if neg then -(mantissa : Int) else (mantissa : Int)
      let e : Int := (expVal.getD 0) - (fracDs.length : Int)
      some (.jnum m e, afterExp)
    else none

mutual

/-- One JSON value, fuel-bounded recursive descent following the scanner
of the Python json module. -/
def parseVal : Nat → List Char → Option (Json × List Char)
  | 0, _ => none
  | fuel + 1, cs =>
    match skipWs cs with
    | '{' :: rest => parseObj fuel rest
    | '[' :: rest => parseArr fuel rest
    | '"' :: rest =>
      (match parseStringBody rest [] with
       | some (s, r) => some (.jstr s, r)
       | none => none)
    | 't' :: 'r' :: 'u' :: 'e' :: rest => some (.jbool true, rest)
    | 'f' :: 'a' :: 'l' :: 's' :: 'e' :: rest => some (.jbool false, rest)
    | 'n' :: 'u' :: 'l' :: 'l' :: rest => some (.null, rest)
    | 'N' :: 'a' :: 'N' :: rest => some (.jnan, rest)
    | 'I' :: 'n' :: 'f' :: 'i' :: 'n' :: 'i' :: 't' :: 'y' :: rest =>
      some (.jinf false, rest)
    | '-' :: 'I' :: 'n' :: 'f' :: 'i' :: 'n' :: 'i' :: 't' :: 'y' :: rest =>
      some (.jinf true, rest)
    | other => parseNumber other

/-- Array body right after the opening bracket. -/
def parseArr : Nat → List Char → Option (Json × List Char)
  | 0, _ => none
  | fuel + 1, cs =>
    match skipWs cs with
    | ']' :: rest => some (.jarr [], rest)
    | other => parseElems fuel other []

/-- Comma-separated array elements, accumulated in reverse. -/
def parseElems : Nat → List Char → List Json → Option (Json × List Char)
  | 0, _, _ => none
  | fuel + 1, cs, acc =>
    match parseVal fuel cs with
    | none => none
    | some (v, rest) =>
      match skipWs rest with
      | ',' :: rest2 => parseElems fuel rest2 (v :: acc)
      | ']' :: rest2 => some (.jarr (v :: acc).reverse, rest2)
      | _ => none

/-- Object body right after the opening brace. -/
def parseObj : Nat → List Char → Option (Json × List Char)
  | 0, _ => none
  | fuel + 1, cs =>
    match skipWs cs with
    | '}' :: rest => some (.jobj [], rest)
    | other => parseMembers fuel other []

/-- Comma-separated object members, built with dict semantics. -/
def parseMembers : Nat → List Char → List (String × Json) →
    Option (Json × List Char)
  | 0, _, _ => none
  | fuel + 1, cs, acc =>
    match skipWs cs with
    | '"' :: rest =>
      (match parseStringBody rest [] with
       | none => none
       | some (k, r1) =>
         match skipWs r1 with
         | ':' :: r2 =>
           (match parseVal fuel r2 with
            | none => none
            | some (v, r3) =>
              let acc' := insertField acc k v
              match skipWs r3 with
              | ',' :: r4 => parseMembers fuel r4 acc'
              | '}' :: r4 => some (.jobj acc', r4)
              | _ => none)
         | _ => none)
    | _ => none

end

/-- json.loads: one value, then nothing but whitespace may remain. -/
def parseJsonTop (s : String) : Option Json :=
  match parseVal (4 * s.data.length + 16) s.data with
  | some (v, rest) => if (skipWs rest).isEmpty then some v else none
  | none => none

/-! ## The response parsing step of scan_with_ai (lines 202 to 216) -/

/-- Lines 202 to 203: strip the raw model output, remove the code-fence
markers, strip again. -/
def strippedOutput (content : String) : String :=
  pyStrip (fenceSub (pyStrip content))

/-- Lines 205 to 213: the greedy bracket span of the fence-stripped text
is parsed as JSON; a missing span or a JSONDecodeError yields the empty
issue list.  A span necessarily starts with a left bracket, so a
successful parse is always an array; the catch-all arm is the
JSONDecodeError handler. -/
def extractIssues (content : String) : List Json :=
  match greedySpan (strippedOutput content) with
  | none => []
  | some sub =>
    match parseJsonTop sub with
    | some (.jarr xs) => xs
    | _ => []

/-- The response fixture of end-to-end scenario 2 of the specification. -/
def fixtureResponse : String :=
  "```json\n[\x7b\"title\":\"Missing alt\",\"issue_type\":\"Alt Text\",\"description\":\"...\",\"line_numbers\":[5],\"code_snippet\":\"<img src=x>\",\"suggestion\":\"Add alt\",\"severity\":\"High\"\x7d]\n```"

/-- The issue record carried by the fixture response. -/
def fixtureIssue : Json :=
  .jobj [("title", .jstr "Missing alt"), ("issue_type", .jstr "Alt Text"),
         ("description", .jstr "..."), ("line_numbers", .jarr [.jnum 5 0]),
         ("code_snippet", .jstr "<img src=x>"), ("suggestion", .jstr "Add alt"),
         ("severity", .jstr "High")]

/-! ## The network call and scan_with_ai -/

/-- Outcome of the chat.completions.create call for one file: either the
text content of the model response, or a raised exception message
(timeout, auth failure, rate limit, a None content, and so on). -/
inductive NetResult where
  | ok (content : String)
  | err (message : String)

/-- scan_with_ai, lines 192 to 216, for one file: a raised network
exception is caught and logged with the file name, yielding zero issues;
a response is put through the parsing step (whose JSONDecodeError handler
is inside extractIssues).  The prompt construction does not affect the
result and is not modelled; the log line of the JSONDecodeError handler
(which carries no file name) is likewise not modelled.  Returns the issue
list and the error log lines printed. -/
def scan_with_ai (file_name : String) (resp : NetResult) :
    List Json × List String :=
  match resp with
  | .ok content => (extractIssues content, [])
  | .err m => ([], ["❌ Error scanning file " ++ file_name ++ ": " ++ m])

/-! ## Issue field access and the renderers -/

/-- dict lookup on the field list of a parsed issue. -/
def jGet (fields : List (String × Json)) (k : String) : Option Json :=
  match fields with
  | [] => none
  | (k', v) :: rest => if k' == k then some v else jGet rest k

/-- Python dict.get(k, default). -/
def jGetD (fields : List (String × Json)) (k : String) (d : Json) : Json :=
  (jGet fields k).getD d

/-- A JSON value used where the renderer needs a Python str (html.escape
or a string cell); a non-string value would raise in Python, modelled as
none. -/
def asStr : Json → Option String
  | .jstr s => some s
  | _ => none

/-- Python str(x) for the scalar values that occur in line_numbers lists;
floats and containers are not modelled. -/
def pyStrOf : Json → Option String
  | .jstr s => some s
  | .jnum m 0 => some (toString m)
  | .jbool true => some "True"
  | .jbool false => some "False"
  | .null => some "None"
  | _ => none

/-- ", ".join(map(str, issue.get("line_numbers", []))): requires the
value to be a list (iterating anything else is not modelled). -/
def joinedLineNumbers (v : Json) : Option String :=
  match v with
  | .jarr xs => (optionMapList pyStrOf xs).map (joinWith ", ")
  | _ => none

/-- Python equality of a JSON value against a string constant: true
exactly when the value is that string (any non-string compares unequal
without raising). -/
def jsonEqStr (v : Json) (s : String) : Bool :=
  match v with
  | .jstr s' => s' == s
  | _ => false

/-- html.escape with the default quote=True: the five markup characters
are replaced by their entities (character 39 is the apostrophe). -/
def escChar (c : Char) : List Char :=
  if c = '&' then "&amp;".data
  else if c = '<' then "&lt;".data
  else if c = '>' then "&gt;".data
  else if c = '"' then "&quot;".data
  else if c = Char.ofNat 39 then "&#x27;".data
  else [c]

/-- html.escape on a whole string. -/
def htmlEscape (s : String) : String :=
  ⟨s.data.flatMap escChar⟩

/-- The characters html.escape replaces by an entity. -/
def escapedChar (c : Char) : Bool :=
  c == '&' || c == '<' || c == '>' || c == '"' || c == Char.ofNat 39

/-- export_to_pdf lines 322 to 330: the severity cell markup, an if/elif
chain on equality with the exact strings High and Medium; everything else
renders the literal green Low. -/
def severityCell (severity : Json) : String :=
  if jsonEqStr severity "High" then "<font color=\"red\"><b>High</b></font>"
  else if jsonEqStr severity "Medium" then "<font color=\"orange\"><b>Medium</b></font>"
  else "<font color=\"green\">Low</font>"

/-- export_to_pdf lines 321 to 340: one issue row of the PDF table.  The
issue must be an object (anything else would raise on .get); the
free-text cells go through html.escape with dict.get defaults of N/A, the
severity cell through the colour chain, the lines cell through the
joined str of line_numbers with default empty list. -/
def pdfIssueRow (idx : Nat) (issue : Json) : Option (List String) :=
  match issue with
  | .jobj fields =>
    let sev := jGetD fields "severity" (.jstr "N/A")
    (match asStr (jGetD fields "title" (.jstr "N/A")),
           asStr (jGetD fields "issue_type" (.jstr "N/A")),
           joinedLineNumbers (jGetD fields "line_numbers" (.jarr [])),
           asStr (jGetD fields "description" (.jstr "N/A")),
           asStr (jGetD fields "suggestion" (.jstr "N/A")) with
     | some t, some ty, some ln, some d, some sg =>
       some [toString idx, htmlEscape t, htmlEscape ty, severityCell sev,
             ln, htmlEscape d, htmlEscape sg]
     | _, _, _, _, _ => none)
  | _ => none

/-- The header row of the per-file PDF issue table (line 319). -/
def pdfHeaderRow : List String :=
  ["#", "Title", "Type", "Severity", "Lines", "Description", "Suggestion"]

/-- table_data of export_to_pdf: the header row followed by one row per
issue, enumerated from 1. -/
def pdfTableData (issues : List Json) : Option (List (List String)) :=
  (optionMapList (fun p => pdfIssueRow p.1 p.2) (pyEnumerate 1 issues)).map
    (fun rows => pdfHeaderRow :: rows)

/-- A per-file block of the PDF body (lines 300 to 321): the file heading
followed either by the no-issues notice or by the issue table. -/
inductive PdfSection where
  | noIssues (path : String)
  | table (path : String) (rows : List (List String))

/-- The file path a PDF section is headed by. -/
def PdfSection.path : PdfSection → String
  | .noIssues p => p
  | .table p _ => p

/-- The section built for one (file path, issues) result. -/
def pdfSection (entry : String × List Json) : Option PdfSection :=
  if entry.2.isEmpty then some (.noIssues entry.1)
  else (pdfTableData entry.2).map (fun rows => .table entry.1 rows)

/-- The per-file blocks of the PDF body, in all_results order. -/
def pdfSections (results : List (String × List Json)) :
    Option (List PdfSection) :=
  optionMapList pdfSection results

/-- Line 293: total issue count of the run. -/
def total_issues (results : List (String × List Json)) : Nat :=
  (results.map (fun r => r.2.length)).sum

/-- Line 294: number of files with a truthy (nonempty) issue list. -/
def files_with_issues (results : List (String × List Json)) : Nat :=
  results.countP (fun r => !r.2.isEmpty)

/-- Line 296: the summary paragraph text. -/
def summaryLine (results : List (String × List Json)) : String :=
  "Summary: " ++ toString (total_issues results) ++ " issue(s) found across "
    ++ toString (files_with_issues results) ++ " of "
    ++ toString results.length ++ " file(s)"

/-- The datetime.now() value at report generation. -/
structure PyDateTime where
  year : Nat
  month : Nat
  day : Nat
  hour : Nat
  minute : Nat
  second : Nat

/-- One zero-padded decimal digit. -/
def dchar (n : Nat) : Char :=
  match n % 10 with
  | 0 => '0' | 1 => '1' | 2 => '2' | 3 => '3' | 4 => '4'
  | 5 => '5' | 6 => '6' | 7 => '7' | 8 => '8' | _ => '9'

/-- strftime("%Y%m%d_%H%M%S") character by character: four zero-padded
digits of the year, two each of month and day, an underscore, two each of
hour, minute, second (faithful for the four-digit years the tool runs
in). -/
def timestampChars (t : PyDateTime) : List Char :=
  [dchar (t.year / 1000), dchar (t.year / 100), dchar (t.year / 10), dchar t.year,
   dchar (t.month / 10), dchar t.month, dchar (t.day / 10), dchar t.day, '_',
   dchar (t.hour / 10), dchar t.hour, dchar (t.minute / 10), dchar t.minute,
   dchar (t.second / 10), dchar t.second]

/-- The timestamp string embedded in the report file name. -/
def strftime_timestamp (t : PyDateTime) : String :=
  ⟨timestampChars t⟩

/-- Line 227: the generated PDF file name. -/
def pdf_filename (t : PyDateTime) : String :=
  "accessibility_report_" ++ strftime_timestamp t ++ ".pdf"

/-- The observable content of export_to_pdf: the summary paragraph, the
per-file blocks, and the file name the function returns. -/
structure PdfReport where
  summary : String
  sections : List PdfSection
  filename : String

/-- export_to_pdf, lines 221 to 362, reduced to its observable content;
none models a raised rendering error (which the source does not catch). -/
def export_to_pdf (t : PyDateTime) (results : List (String × List Json)) :
    Option PdfReport :=
  (pdfSections results).map
    (fun secs =>
      { summary := summaryLine results, sections := secs,
        filename := pdf_filename t })

/-! ## Console renderers of main (lines 405 to 428) -/

/-- One row of the console table (lines 406 to 417): enumerate starts at
0 and the first cell shows i+1; missing fields default to the empty
string, the lines cell to the empty list. -/
def consoleTableRow (i : Nat) (issue : List (String × Json)) :
    Option (List String) :=
  match asStr (jGetD issue "title" (.jstr "")),
        asStr (jGetD issue "issue_type" (.jstr "")),
        asStr (jGetD issue "severity" (.jstr "")),
        joinedLineNumbers (jGetD issue "line_numbers" (.jarr [])),
        asStr (jGetD issue "description" (.jstr "")),
        asStr (jGetD issue "suggestion" (.jstr "")) with
  | some t, some ty, some sv, some ln, some d, some sg =>
    some [toString (i + 1), t, ty, sv, ln, d, sg]
  | _, _, _, _, _, _ => none

/-- One block of the console list output (lines 423 to 428), enumerated
from 1, with the same empty-string defaults. -/
def consoleListBlock (idx : Nat) (issue : List (String × Json)) :
    Option (List String) :=
  match asStr (jGetD issue "title" (.jstr "")),
        asStr (jGetD issue "issue_type" (.jstr "")),
        asStr (jGetD issue "severity" (.jstr "")),
        joinedLineNumbers (jGetD issue "line_numbers" (.jarr [])),
        asStr (jGetD issue "description" (.jstr "")),
        asStr (jGetD issue "suggestion" (.jstr "")) with
  | some t, some ty, some sv, some ln, some d, some sg =>
    some ["\n" ++ toString idx ++ ". " ++ t ++ " [" ++ ty ++ "] (Severity: " ++ sv ++ ")",
          "   Lines: " ++ ln,
          "   Description: " ++ d,
          "   Suggestion: " ++ sg,
          ⟨List.replicate 80 '-'⟩]
  | _, _, _, _, _, _ => none

/-! ## The configuration and find_supported_files -/

/-- The configuration record of checker.config.json. -/
structure Config where
  SUPPORTED_EXTENSIONS : List String
  EXCLUDED_DIRS : List String
  EXCLUDED_PATTERNS : List String
  MODEL : String

/-- The built-in defaults of load_config (lines 40 to 45). -/
def defaultConfig : Config where
  SUPPORTED_EXTENSIONS := [".html", ".twig", ".css", ".scss", ".pcss", ".jsx", ".tsx"]
  EXCLUDED_DIRS := ["node_modules", "storybook", ".git", "__pycache__", "dist", "build"]
  EXCLUDED_PATTERNS := [".stories.jsx", ".stories.tsx"]
  MODEL := "gpt-4o"

/-- A directory tree entry: a file, or a directory with its entries.
The scanned root is a List FS (the entries of the root directory);
sibling entries of a real filesystem always carry distinct names, which
nodupTree captures. -/
inductive FS where
  | file (name : String)
  | dir (name : String) (children : List FS)

/-- The name of an entry. -/
def entryName : FS → String
  | .file n => n
  | .dir n _ => n

/-- Line 95: a directory survives the in-place pruning iff its name does
not start with a dot and is not in EXCLUDED_DIRS. -/
def keepDir (cfg : Config) (d : String) : Bool :=
  !(strStartsWith d ".") && !(cfg.EXCLUDED_DIRS.contains d)

/-- Lines 97 to 99: a file is collected iff its name ends with a
supported extension and contains no excluded-pattern substring. -/
def keepFile (cfg : Config) (f : String) : Bool :=
  (cfg.SUPPORTED_EXTENSIONS.any (fun ext => strEndsWith f ext))
    && !(cfg.EXCLUDED_PATTERNS.any (fun pat => strContains f pat))

/-- The kept files of one directory, as paths below the scanned root
(path is the component list of the directory). -/
def keptFiles (cfg : Config) (path : List String) : List FS → List (List String)
  | [] => []
  | .file n :: rest =>
    (if keepFile cfg n then [path ++ [n]] else []) ++ keptFiles cfg path rest
  | .dir _ _ :: rest => keptFiles cfg path rest

/-- The walk below one directory: for each subdirectory surviving the
pruning, in order, its kept files followed by its own walk (os.walk
top-down order). -/
def walkSub (cfg : Config) : List String → List FS → List (List String)
  | _, [] => []
  | path, .file _ :: rest => walkSub cfg path rest
  | path, .dir d cs :: rest =>
    (if keepDir cfg d then
       keptFiles cfg (path ++ [d]) cs ++ walkSub cfg (path ++ [d]) cs
     else []) ++ walkSub cfg path rest

/-- The walk rooted at a directory given by its entries. -/
def walkAll (cfg : Config) (path : List String) (es : List FS) :
    List (List String) :=
  keptFiles cfg path es ++ walkSub cfg path es

/-- find_supported_files (lines 92 to 102): the files collected by the
pruned os.walk of the scanned directory, as component paths below it. -/
def find_supported_files (cfg : Config) (tree : List FS) :
    List (List String) :=
  walkAll cfg [] tree

/-- The path points at a file of the tree. -/
def hasFileAt : List FS → List String → Bool
  | [], _ => false
  | .file n :: rest, p => (decide (p = [n])) || hasFileAt rest p
  | .dir d cs :: rest, p =>
    (match p with
     | pd :: q1 :: qrest => (decide (pd = d)) && hasFileAt cs (q1 :: qrest)
     | _ => false) || hasFileAt rest p

/-- Every directory component of the path survives the pruning and the
final component is a kept file name. -/
def pathSelected (cfg : Config) : List String → Bool
  | [] => false
  | [f] => keepFile cfg f
  | d :: rest => keepDir cfg d && pathSelected cfg rest

/-- Sibling entries carry pairwise distinct names, at every level. -/
def nodupTree : List FS → Bool
  | [] => true
  | .file n :: rest =>
    !(rest.any (fun e => entryName e == n)) && nodupTree rest
  | .dir d cs :: rest =>
    !(rest.any (fun e => entryName e == d)) && nodupTree cs && nodupTree rest

/-! ## The scan loop of main (lines 389 to 431) -/

/-- Whether the open/read of a file succeeds. -/
def readOk : Except String String → Bool
  | .ok _ => true
  | .error _ => false

/-- The per-file loop of main: read the file (an unreadable file is
caught at line 430, logged, and produces no all_results entry), scan it,
and append (file, issues) to all_results.  read models open().read() and
net models the model response for the file; the printing of issue tables
inside the loop has no effect on the collected results and only the error
log lines are kept.  Returns (all_results, error log lines). -/
def runScan (read : String → Except String String)
    (net : String → NetResult) :
    List String → List (String × List Json) × List String
  | [] => ([], [])
  | f :: rest =>
    match read f with
    | .error m =>
      let (rs, logs) := runScan read net rest
      (rs, ("❗ Could not read " ++ f ++ ": " ++ m) :: logs)
    | .ok _ =>
      let (issues, slogs) := scan_with_ai f (net f)
      let (rs, logs) := runScan read net rest
      ((f, issues) :: rs, slogs ++ logs)

/-! ## Startup and exit behaviour (module level and main) -/

/-- Python truthiness of an optional environment string: None and the
empty string are falsy. -/
def pyTruthyStr : Option String → Bool
  | none => false
  | some s => !(s == "")

/-- The environment the run starts in. -/
structure Env where
  envKey : Option String
  dotenvKey : Option String
  acknowledged : Option String
  consentAnswer : String

/-- Lines 21 to 24: the key from the environment, or failing a truthy
value there, the one visible after load_dotenv(). -/
def effectiveKey (e : Env) : Option String :=
  if pyTruthyStr e.envKey then e.envKey else e.dotenvKey

/-- How a run ends: an exit (sys exit code and the message printed last),
or completion with the collected results, the error log, and the name of
the written PDF when the format asked for one. -/
inductive RunOutcome where
  | exited (code : Nat) (message : String)
  | finished (results : List (String × List Json)) (logs : List String)
      (pdfName : Option String)

/-- os.path.join of the scanned directory with the path components. -/
def joinPath (root : String) (p : List String) : String :=
  root ++ p.foldl (fun acc comp => acc ++ "/" ++ comp) ""

/-- The script end to end: the module-level credential check (exit(1) on
a falsy key), the consent gate of main (exit(0) unless acknowledged or
answered yes after strip/lower), the empty-scan warning (main returns,
the process exits 0), then the scan loop and, for the pdf format, the
report. -/
def runMain (env : Env) (cfg : Config) (tree : List FS) (directory : String)
    (read : String → Except String String) (net : String → NetResult)
    (fmt : String) (t : PyDateTime) : RunOutcome :=
  if !(pyTruthyStr (effectiveKey env)) then
    .exited 1 "❌ OpenAI API key not found in .env file or environment variable."
  else if !(env.acknowledged == some "true")
      && !(pyLower (pyStrip env.consentAnswer) == "yes") then
    .exited 0 "Exiting. You must acknowledge before running."
  else
    let files := (find_supported_files cfg tree).map (joinPath directory)
    if files.isEmpty then
      .exited 0 "⚠️ No supported files found in the specified directory."
    else
      let (results, logs) := runScan read net files
      .finished results logs (if fmt == "pdf" then some (pdf_filename t) else none)

/-! ## Concrete instances used by the closed theorems below -/

/-- A reader for which a.html is unreadable and every other file reads. -/
def cexRead : String → Except String String :=
  fun f => if f == "a.html" then .error "boom" else .ok "x"

/-- A reader for which every file reads. -/
def okRead : String → Except String String :=
  fun _ => .ok "x"

/-- A network oracle answering an empty issue array for every file. -/
def netEmpty : String → NetResult :=
  fun _ => .ok "[]"

/-- A sample directory tree exercising the pruning and the filters. -/
def exTree : List FS :=
  [.file "a.html", .file "a.stories.jsx",
   .dir "node_modules" [.file "b.html"],
   .dir ".hidden" [.file "c.html"],
   .dir "src" [.file "d.html", .dir "deep" [.file "e.tsx"]]]

/-- A sample report generation time. -/
def exDT : PyDateTime := ⟨2026, 10, 12, 3, 4, 5⟩

/-- The two-file result sequence of end-to-end scenario 4: one file with
one issue, one with none. -/
def exResults : List (String × List Json) :=
  [("a.html", [Json.jobj []]), ("b.html", [])]

/-- The report generated for exResults (total when pdfSections is). -/
def exReport : PdfReport :=
  (export_to_pdf exDT exResults).getD ⟨"", [], ""⟩

/-- The PDF body sections generated for exResults. -/
def exSections : List PdfSection :=
  (pdfSections exResults).getD []

/-- An issue whose title holds PDF markup characters. -/
def markupIssue : List (String × Json) := [("title", .jstr "<b>&")]

/-- An issue with a severity that is neither High nor Medium. -/
def criticalIssue : List (String × Json) := [("severity", .jstr "Critical")]

/-- An environment with no credential anywhere. -/
def envNoKey : Env := ⟨none, none, none, ""⟩

/-- A credentialed environment whose user declines the consent prompt. -/
def envDecline : Env := ⟨some "k", none, none, " NO "⟩

/-- A credentialed, acknowledged environment. -/
def envAck : Env := ⟨some "k", none, some "true", ""⟩

/-! # Theorems -/

/-! ## C1 and C2: the response parsing step -/

/-- C1: for every model response whose fence-stripped text has a greedy
first-left-bracket-to-last-right-bracket span parsing as a JSON array,
the extractor returns exactly that parsed array; in particular on the
fixture response it returns the one-element list with those exact field
values. -/
theorem extractIssues_parses_greedy_span :
    (∀ (content sub : String) (xs : List Json),
        greedySpan (strippedOutput content) = some sub →
        parseJsonTop sub = some (Json.jarr xs) →
        extractIssues content = xs)
    ∧ extractIssues fixtureResponse = [fixtureIssue] := by
  constructor
  · intro content sub xs h1 h2
    simp only [extractIssues, h1, h2]
  · rfl

/-- Witness for C1 at a concrete prose-wrapped response. -/
theorem extractIssues_parses_greedy_span_witness :
    extractIssues "prose [\"x\"] end" = [Json.jstr "x"] :=
  extractIssues_parses_greedy_span.1 "prose [\"x\"] end" "[\"x\"]"
    [Json.jstr "x"] rfl rfl

/-- C2: a response with no bracketed span, or whose bracketed span fails
to parse as JSON, yields the empty issue list (the extractor is a total
function, so no exception propagates). -/
theorem extractIssues_failure_empty :
    ∀ content : String,
      (greedySpan (strippedOutput content) = none → extractIssues content = [])
      ∧ (∀ sub : String, greedySpan (strippedOutput content) = some sub →
          parseJsonTop sub = none → extractIssues content = []) := by
  intro content
  constructor
  · intro h
    simp only [extractIssues, h]
  · intro sub h1 h2
    simp only [extractIssues, h1, h2]

/-- Witness for C2 at a bracketless response and at a malformed span. -/
theorem extractIssues_failure_empty_witness :
    extractIssues "I found no issues." = []
    ∧ extractIssues "alas [not json] end" = [] :=
  ⟨(extractIssues_failure_empty "I found no issues.").1 rfl,
   (extractIssues_failure_empty "alas [not json] end").2 "[not json]" rfl rfl⟩

/-! ## C4: per-file soft errors -/

/-- Helper: the collected results are exactly the readable files, in
order, each carrying what scan_with_ai returned for it. -/
theorem runScan_fst_filterMap (read : String → Except String String)
    (net : String → NetResult) :
    ∀ files : List String,
      (runScan read net files).1
        = files.filterMap (fun f =>
            match read f with
            | .error _ => none
            | .ok _ => some (f, (scan_with_ai f (net f)).1))
  | [] => rfl
  | f :: rest => by
    cases h : read f with
    | error m => simp [runScan, h, runScan_fst_filterMap read net rest]
    | ok c => simp [runScan, h, runScan_fst_filterMap read net rest]

/-- Helper: a failed read is logged with the file name. -/
theorem runScan_read_error_log (read : String → Except String String)
    (net : String → NetResult) :
    ∀ (files : List String) (f m : String), f ∈ files → read f = .error m →
      ("❗ Could not read " ++ f ++ ": " ++ m) ∈ (runScan read net files).2
  | [], f, _, h, _ => absurd h (List.not_mem_nil f)
  | g :: rest, f, m, h, hr => by
    rcases List.mem_cons.1 h with rfl | hmem
    · simp [runScan, hr]
    · cases hg : read g with
      | error m2 =>
        simp only [runScan, hg]
        exact List.mem_cons_of_mem _
          (runScan_read_error_log read net rest f m hmem hr)
      | ok c =>
        simp only [runScan, hg]
        exact List.mem_append_right _
          (runScan_read_error_log read net rest f m hmem hr)

/-- C4 (amended): every per-file soft error is caught and the scan
continues with the subsequent files; a network-call exception is logged
with the file name and yields an entry with zero issues; an unreadable
file is logged with the file name and produces no entry in the run
results at all (it is omitted rather than recorded as zero issues). -/
theorem scanLoop_soft_error_handling :
    ∀ (read : String → Except String String) (net : String → NetResult)
      (files : List String),
      ((runScan read net files).1
        = files.filterMap (fun f =>
            match read f with
            | .error _ => none
            | .ok _ => some (f, (scan_with_ai f (net f)).1)))
      ∧ (∀ f m, f ∈ files → read f = .error m →
          ("❗ Could not read " ++ f ++ ": " ++ m) ∈ (runScan read net files).2)
      ∧ (∀ f m, scan_with_ai f (.err m)
          = ([], ["❌ Error scanning file " ++ f ++ ": " ++ m])) :=
  fun read net files =>
    ⟨runScan_fst_filterMap read net files,
     fun f m hf hr => runScan_read_error_log read net files f m hf hr,
     fun _ _ => rfl⟩

/-- Witness for the amended C4: the unreadable a.html is logged by name. -/
theorem scanLoop_soft_error_handling_witness :
    ("❗ Could not read a.html: boom")
      ∈ (runScan cexRead netEmpty ["a.html", "b.html"]).2 :=
  (scanLoop_soft_error_handling cexRead netEmpty ["a.html", "b.html"]).2.1
    "a.html" "boom" (List.mem_cons_self _ _) rfl

/-- C4 counterexample: with a.html unreadable and b.html clean, the run
results are a single b.html entry; a.html has no entry at all, refuting
the claim that an unreadable file is treated as having zero issues in
the run results. -/
theorem scanLoop_unreadable_counterexample :
    (runScan cexRead netEmpty ["a.html", "b.html"]).1 = [("b.html", [])]
    ∧ (runScan cexRead netEmpty ["a.html", "b.html"]).1
        ≠ [("a.html", []), ("b.html", [])] := by
  constructor
  · rfl
  · intro h
    have h2 : ([("b.html", ([] : List Json))] : List (String × List Json))
        = [("a.html", []), ("b.html", [])] := by
      rw [← h]
      rfl
    exact absurd (congrArg List.length h2) (by decide)

/-! ## C5, C9, C10: the renderers -/

/-- Helper: the escape of one character holds no raw less-than. -/
theorem escChar_count_lt (c : Char) : (escChar c).count '<' = 0 := by
  unfold escChar
  split_ifs with h1 h2 h3 h4 h5
  · decide
  · decide
  · decide
  · decide
  · decide
  · simp [List.count_cons, List.count_nil, beq_iff_eq, Ne.symm h2]

/-- Helper: the escape of one character holds no raw greater-than. -/
theorem escChar_count_gt (c : Char) : (escChar c).count '>' = 0 := by
  unfold escChar
  split_ifs with h1 h2 h3 h4 h5
  · decide
  · decide
  · decide
  · decide
  · decide
  · simp [List.count_cons, List.count_nil, beq_iff_eq, Ne.symm h3]

/-- Helper: the escape of one character starts with an ampersand exactly
when the character is one of the five replaced ones. -/
theorem escChar_count_amp (c : Char) :
    (escChar c).count '&' = if escapedChar c then 1 else 0 := by
  unfold escChar escapedChar
  split_ifs with h1 h2 h3 h4 h5 <;>
    simp_all [List.count_cons, List.count_nil, beq_iff_eq]

/-- Helper: flatMap of the escape over a list, counted at one char. -/
theorem escList_count (c0 : Char) :
    ∀ l : List Char,
      (l.flatMap escChar).count c0
        = (l.map (fun c => (escChar c).count c0)).sum
  | [] => rfl
  | c :: rest => by
    rw [List.flatMap_cons, List.count_append, escList_count c0 rest,
      List.map_cons, List.sum_cons]

/-- Helper: a prefix matches at the front. -/
theorem isPrefixList_append_self : ∀ (p r : List Char),
    isPrefixList p (p ++ r) = true
  | [], _ => rfl
  | c :: ps, r => by simp [isPrefixList, isPrefixList_append_self ps r]

/-- Helper: substring occurrence survives extension on the left. -/
theorem containsSub_append_left (pat : List Char) :
    ∀ (xs l : List Char), containsSub pat l = true →
      containsSub pat (xs ++ l) = true
  | [], _, h => h
  | x :: xs, l, h => by
    simp [containsSub, containsSub_append_left pat xs l h]

/-- Helper: a pattern occurs in itself plus anything. -/
theorem containsSub_self_append : ∀ (pat r : List Char),
    containsSub pat (pat ++ r) = true
  | [], [] => rfl
  | [], c :: cs => by simp [containsSub, isPrefixList]
  | p :: ps, r => by simp [containsSub, isPrefixList, isPrefixList_append_self]

/-- Helper: the entity of a character present in the input occurs in the
escaped output. -/
theorem escList_entity_present :
    ∀ (l : List Char) (c0 : Char), c0 ∈ l →
      containsSub (escChar c0) (l.flatMap escChar) = true
  | c :: rest, c0, h => by
    rw [List.flatMap_cons]
    rcases List.mem_cons.1 h with rfl | hmem
    · exact containsSub_self_append _ _
    · exact containsSub_append_left _ _ _ (escList_entity_present rest c0 hmem)

/-- C5: every free-text cell of a PDF issue row is the html.escape of the
field value (with the N/A default), so the rendered cell text holds no
raw angle bracket, each ampersand of it marks exactly one escaped input
character, and the entity of any markup character of the value occurs in
the cell text. -/
theorem pdf_free_text_escaped :
    ∀ (idx : Nat) (fields : List (String × Json)) (t ty d sg ln : String),
      asStr (jGetD fields "title" (.jstr "N/A")) = some t →
      asStr (jGetD fields "issue_type" (.jstr "N/A")) = some ty →
      asStr (jGetD fields "description" (.jstr "N/A")) = some d →
      asStr (jGetD fields "suggestion" (.jstr "N/A")) = some sg →
      joinedLineNumbers (jGetD fields "line_numbers" (.jarr [])) = some ln →
      (pdfIssueRow idx (.jobj fields)
        = some [toString idx, htmlEscape t, htmlEscape ty,
                severityCell (jGetD fields "severity" (.jstr "N/A")),
                ln, htmlEscape d, htmlEscape sg])
      ∧ (∀ s : String,
           (htmlEscape s).data.count '<' = 0
           ∧ (htmlEscape s).data.count '>' = 0
           ∧ (htmlEscape s).data.count '&' = s.data.countP escapedChar
           ∧ ('<' ∈ s.data → strContains (htmlEscape s) "&lt;" = true)
           ∧ ('>' ∈ s.data → strContains (htmlEscape s) "&gt;" = true)
           ∧ ('&' ∈ s.data → strContains (htmlEscape s) "&amp;" = true)) := by
  intro idx fields t ty d sg ln h1 h2 h3 h4 h5
  constructor
  · simp only [pdfIssueRow, h1, h2, h3, h4, h5]
  · intro s
    refine ⟨?_, ?_, ?_, ?_, ?_, ?_⟩
    · show (s.data.flatMap escChar).count '<' = 0
      rw [escList_count]
      simp [escChar_count_lt]
    · show (s.data.flatMap escChar).count '>' = 0
      rw [escList_count]
      simp [escChar_count_gt]
    · show (s.data.flatMap escChar).count '&' = s.data.countP escapedChar
      induction s.data with
      | nil => rfl
      | cons c rest ih =>
        rw [List.flatMap_cons, List.count_append, ih, List.countP_cons,
          escChar_count_amp]
        omega
    · exact fun h => escList_entity_present s.data '<' h
    · exact fun h => escList_entity_present s.data '>' h
    · exact fun h => escList_entity_present s.data '&' h

/-- Witness for C5 at an issue whose title holds markup characters. -/
theorem pdf_free_text_escaped_witness :
    pdfIssueRow 1 (.jobj markupIssue)
      = some ["1", htmlEscape "<b>&", "N/A",
              severityCell (Json.jstr "N/A"), "", "N/A", "N/A"]
    ∧ (htmlEscape "<b>&").data.count '<' = 0 :=
  ⟨(pdf_free_text_escaped 1 markupIssue "<b>&" "N/A" "N/A" "N/A" ""
      rfl rfl rfl rfl rfl).1,
   ((pdf_free_text_escaped 1 markupIssue "<b>&" "N/A" "N/A" "N/A" ""
      rfl rfl rfl rfl rfl).2 "<b>&").1⟩

/-- Helper: Python equality of a JSON value against a string constant is
false when the value is not that string. -/
theorem jsonEqStr_eq_false {v : Json} {s : String} (h : v ≠ .jstr s) :
    jsonEqStr v s = false := by
  cases v with
  | jstr s' =>
    exact beq_eq_false_iff_ne.2 (fun hs => h (by rw [hs]))
  | null => rfl
  | jbool b => rfl
  | jnum m e => rfl
  | jnan => rfl
  | jinf n => rfl
  | jarr xs => rfl
  | jobj fs => rfl

/-- C9: any severity value other than exactly the strings High and
Medium, a missing severity included, renders the literal green Low cell;
only High and Medium are rendered with their own text. -/
theorem severity_fallback_low :
    ∀ fields : List (String × Json),
      (∀ v : Json, jGet fields "severity" = some v →
         v ≠ .jstr "High" → v ≠ .jstr "Medium" →
         severityCell (jGetD fields "severity" (.jstr "N/A"))
           = "<font color=\"green\">Low</font>")
      ∧ (jGet fields "severity" = none →
         severityCell (jGetD fields "severity" (.jstr "N/A"))
           = "<font color=\"green\">Low</font>")
      ∧ severityCell (.jstr "High") = "<font color=\"red\"><b>High</b></font>"
      ∧ severityCell (.jstr "Medium")
          = "<font color=\"orange\"><b>Medium</b></font>" := by
  intro fields
  refine ⟨?_, ?_, rfl, rfl⟩
  · intro v hv hne1 hne2
    simp only [jGetD, hv, Option.getD_some, severityCell,
      jsonEqStr_eq_false hne1, jsonEqStr_eq_false hne2]
    rfl
  · intro hv
    simp only [jGetD, hv, Option.getD_none]
    rfl

/-- Witness for C9 at the severity Critical. -/
theorem severity_fallback_low_witness :
    severityCell (jGetD criticalIssue "severity" (.jstr "N/A"))
      = "<font color=\"green\">Low</font>" :=
  (severity_fallback_low criticalIssue).1 (.jstr "Critical") rfl
    (by intro h; injection h with h'; exact absurd h' (by decide))
    (by intro h; injection h with h'; exact absurd h' (by decide))

/-- C10: each renderer is total on issue objects with missing fields,
substituting N/A in the PDF row, the empty string in the console table
and list, and the empty line list. -/
theorem renderers_missing_field_defaults :
    ∀ (idx : Nat) (fields : List (String × Json)),
      jGet fields "title" = none → jGet fields "issue_type" = none →
      jGet fields "description" = none → jGet fields "suggestion" = none →
      jGet fields "severity" = none → jGet fields "line_numbers" = none →
      pdfIssueRow idx (.jobj fields)
        = some [toString idx, "N/A", "N/A", "<font color=\"green\">Low</font>",
                "", "N/A", "N/A"]
      ∧ consoleTableRow idx fields
        = some [toString (idx + 1), "", "", "", "", "", ""]
      ∧ consoleListBlock idx fields
        = some ["\n" ++ toString idx ++ ". " ++ "" ++ " [" ++ "" ++
                  "] (Severity: " ++ "" ++ ")",
                "   Lines: " ++ "", "   Description: " ++ "",
                "   Suggestion: " ++ "", ⟨List.replicate 80 '-'⟩] := by
  intro idx fields h1 h2 h3 h4 h5 h6
  refine ⟨?_, ?_, ?_⟩
  · simp only [pdfIssueRow, jGetD, h1, h2, h3, h4, h5, h6]
    rfl
  · simp only [consoleTableRow, jGetD, h1, h2, h3, h4, h5, h6]
    rfl
  · simp only [consoleListBlock, jGetD, h1, h2, h3, h4, h5, h6]
    rfl

/-- Witness for C10 at the empty issue object. -/
theorem renderers_missing_field_defaults_witness :
    pdfIssueRow 1 (.jobj [])
      = some ["1", "N/A", "N/A", "<font color=\"green\">Low</font>",
              "", "N/A", "N/A"]
    ∧ consoleTableRow 1 [] = some ["2", "", "", "", "", "", ""] :=
  ⟨(renderers_missing_field_defaults 1 [] rfl rfl rfl rfl rfl rfl).1,
   (renderers_missing_field_defaults 1 [] rfl rfl rfl rfl rfl rfl).2.1⟩

/-! ## C6: PDF file name and summary line -/

/-- Helper: every padded timestamp character except the underscore is a
decimal digit. -/
theorem dchar_isDigit (n : Nat) : (dchar n).isDigit = true := by
  unfold dchar
  split <;> decide

/-- Helper: the timestamp holds exactly fourteen digit characters. -/
theorem timestamp_digit_count (t : PyDateTime) :
    (timestampChars t).countP Char.isDigit = 14 := by
  simp [timestampChars, List.countP_cons, dchar_isDigit]

/-- C6: export_to_pdf returns the file name accessibility_report_ plus
the compact timestamp plus .pdf, where the timestamp has 15 characters of
which 14 are digits, with the underscore at index 8; and the summary line
reports the total issue count, the number of files with at least one
issue, and the total file count; concretely, for two files carrying one
and zero issues, it reads Summary: 1 issue(s) found across 1 of 2
file(s). -/
theorem export_pdf_filename_and_summary :
    (∀ (t : PyDateTime) (results : List (String × List Json))
       (report : PdfReport),
       export_to_pdf t results = some report →
       report.filename
           = "accessibility_report_" ++ strftime_timestamp t ++ ".pdf"
       ∧ (strftime_timestamp t).data.length = 15
       ∧ (strftime_timestamp t).data.countP Char.isDigit = 14
       ∧ (strftime_timestamp t).data[8]? = some '_'
       ∧ report.summary
           = "Summary: " ++ toString (total_issues results)
             ++ " issue(s) found across "
             ++ toString (files_with_issues results)
             ++ " of " ++ toString results.length ++ " file(s)")
    ∧ summaryLine exResults
        = "Summary: 1 issue(s) found across 1 of 2 file(s)" := by
  constructor
  · intro t results report h
    unfold export_to_pdf at h
    rcases Option.map_eq_some'.1 h with ⟨secs, hsecs, hrep⟩
    rw [← hrep]
    exact ⟨rfl, rfl, timestamp_digit_count t, rfl, rfl⟩
  · rfl

/-- Witness for C6 at the two-file scenario and a concrete datetime. -/
theorem export_pdf_filename_and_summary_witness :
    export_to_pdf exDT exResults = some exReport
    ∧ exReport.filename = "accessibility_report_20261012_030405.pdf"
    ∧ exReport.summary = "Summary: 1 issue(s) found across 1 of 2 file(s)" := by
  have h : export_to_pdf exDT exResults = some exReport := rfl
  have hm := export_pdf_filename_and_summary.1 exDT exResults exReport h
  exact ⟨h, hm.1.trans (by rfl), hm.2.2.2.2.trans (by rfl)⟩

/-! ## C7: startup and exit behaviour -/

/-- C7: a run with no truthy credential exits with code 1; a credentialed
unacknowledged run whose consent answer is not yes exits with code 0; a
consented run over a directory with no matching files exits with code 0
after the warning, without scanning or producing a report (the exited
outcome carries no results and no report name). -/
theorem main_exit_behavior :
    ∀ (env : Env) (cfg : Config) (tree : List FS) (directory : String)
      (read : String → Except String String) (net : String → NetResult)
      (fmt : String) (t : PyDateTime),
      (pyTruthyStr (effectiveKey env) = false →
        runMain env cfg tree directory read net fmt t
          = .exited 1 "❌ OpenAI API key not found in .env file or environment variable.")
      ∧ (pyTruthyStr (effectiveKey env) = true →
         (env.acknowledged == some "true") = false →
         (pyLower (pyStrip env.consentAnswer) == "yes") = false →
         runMain env cfg tree directory read net fmt t
           = .exited 0 "Exiting. You must acknowledge before running.")
      ∧ (pyTruthyStr (effectiveKey env) = true →
         ((env.acknowledged == some "true") = true
           ∨ (pyLower (pyStrip env.consentAnswer) == "yes") = true) →
         find_supported_files cfg tree = [] →
         runMain env cfg tree directory read net fmt t
           = .exited 0 "⚠️ No supported files found in the specified directory.") := by
  intro env cfg tree directory read net fmt t
  refine ⟨?_, ?_, ?_⟩
  · intro hk
    simp [runMain, hk]
  · intro hk ha hc
    simp [runMain, hk, ha, hc]
  · intro hk hcons hfind
    rcases hcons with ha | hc
    · simp [runMain, hk, ha, hfind]
    · simp [runMain, hk, hc, hfind]

/-- Witness for C7 at the three concrete environments. -/
theorem main_exit_behavior_witness :
    runMain envNoKey defaultConfig [] "." okRead netEmpty "table" exDT
      = .exited 1 "❌ OpenAI API key not found in .env file or environment variable."
    ∧ runMain envDecline defaultConfig [] "." okRead netEmpty "table" exDT
      = .exited 0 "Exiting. You must acknowledge before running."
    ∧ runMain envAck defaultConfig [] "." okRead netEmpty "table" exDT
      = .exited 0 "⚠️ No supported files found in the specified directory." :=
  ⟨(main_exit_behavior envNoKey defaultConfig [] "." okRead netEmpty "table" exDT).1 rfl,
   (main_exit_behavior envDecline defaultConfig [] "." okRead netEmpty "table" exDT).2.1
     rfl rfl rfl,
   (main_exit_behavior envAck defaultConfig [] "." okRead netEmpty "table" exDT).2.2
     rfl (Or.inl rfl) (by simp [find_supported_files, walkAll, keptFiles, walkSub])⟩

/-! ## C8: order preservation -/

/-- Helper: the file keys of the collected results are the readable
files in their original order. -/
theorem runScan_map_fst (read : String → Except String String)
    (net : String → NetResult) :
    ∀ files : List String,
      (runScan read net files).1.map Prod.fst
        = files.filter (fun f => readOk (read f))
  | [] => rfl
  | f :: rest => by
    cases h : read f with
    | error m =>
      simp [runScan, h, readOk, runScan_map_fst read net rest, List.filter_cons]
    | ok c =>
      simp [runScan, h, readOk, runScan_map_fst read net rest, List.filter_cons]

/-- Helper: the issues attached to a file key are exactly what
scan_with_ai returned for that file. -/
theorem runScan_entry_issues (read : String → Except String String)
    (net : String → NetResult) :
    ∀ (files : List String) (f : String) (is : List Json),
      (f, is) ∈ (runScan read net files).1 →
      is = (scan_with_ai f (net f)).1
  | [], f, _, h => absurd h (List.not_mem_nil _)
  | g :: rest, f, is, h => by
    cases hg : read g with
    | error m =>
      simp only [runScan, hg] at h
      exact runScan_entry_issues read net rest f is h
    | ok c =>
      simp only [runScan, hg] at h
      rcases List.mem_cons.1 h with heq | hmem
      · have h1 := congrArg Prod.fst heq
        have h2 := congrArg Prod.snd heq
        simp only at h1 h2
        subst h1
        exact h2
      · exact runScan_entry_issues read net rest f is hmem

/-- Helper: a successful optionMapList relates input and output
pointwise and in order. -/
theorem optionMapList_forall2 (f : α → Option β) :
    ∀ (l : List α) (l' : List β), optionMapList f l = some l' →
      List.Forall₂ (fun a b => f a = some b) l l'
  | [], l', h => by
    simp only [optionMapList, Option.some.injEq] at h
    rw [← h]
    exact List.Forall₂.nil
  | a :: rest, l', h => by
    simp only [optionMapList] at h
    cases hfa : f a with
    | none => rw [hfa] at h; simp at h
    | some b =>
      cases hrest : optionMapList f rest with
      | none => rw [hfa, hrest] at h; simp at h
      | some bs =>
        rw [hfa, hrest] at h
        simp only [Option.some.injEq] at h
        rw [← h]
        exact List.Forall₂.cons hfa (optionMapList_forall2 f rest bs hrest)

/-- Helper: a PDF section is headed by the file path of its entry. -/
theorem pdfSection_path_eq (entry : String × List Json) (sec : PdfSection)
    (h : pdfSection entry = some sec) : sec.path = entry.1 := by
  unfold pdfSection at h
  by_cases hE : entry.2.isEmpty
  · rw [if_pos hE] at h
    injection h with h2
    rw [← h2]
    rfl
  · rw [if_neg hE] at h
    rcases Option.map_eq_some'.1 h with ⟨rows, _, h2⟩
    rw [← h2]
    rfl

/-- Helper: pointwise sections yield the path list of the results. -/
theorem forall2_section_path (results : List (String × List Json))
    (secs : List PdfSection)
    (h : List.Forall₂ (fun r sec => pdfSection r = some sec) results secs) :
    secs.map PdfSection.path = results.map Prod.fst := by
  induction h with
  | nil => rfl
  | cons h1 _ ih => simp [ih, pdfSection_path_eq _ _ h1]

/-- C8: the collected results list one entry per readable file in
discovery order, each file key carrying exactly the issue list the
extractor returned for it, with distinct keys when the file list has no
duplicates; the PDF body presents one section per result in the same
order, and within a file the table rows follow the extractor order,
enumerated from 1 under the header row. -/
theorem results_order_preserved :
    ∀ (read : String → Except String String) (net : String → NetResult)
      (files : List String),
      ((runScan read net files).1.map Prod.fst
        = files.filter (fun f => readOk (read f)))
      ∧ (∀ f is, (f, is) ∈ (runScan read net files).1 →
          is = (scan_with_ai f (net f)).1)
      ∧ (files.Nodup → ((runScan read net files).1.map Prod.fst).Nodup)
      ∧ (∀ (results : List (String × List Json)) (secs : List PdfSection),
          pdfSections results = some secs →
          secs.map PdfSection.path = results.map Prod.fst)
      ∧ (∀ (issues : List Json) (tbl : List (List String)),
          pdfTableData issues = some tbl →
          tbl.head? = some pdfHeaderRow
          ∧ List.Forall₂ (fun pr row => pdfIssueRow pr.1 pr.2 = some row)
              (pyEnumerate 1 issues) tbl.tail) := by
  intro read net files
  refine ⟨runScan_map_fst read net files,
          fun f is h => runScan_entry_issues read net files f is h,
          ?_, ?_, ?_⟩
  · intro hnd
    rw [runScan_map_fst read net files]
    exact hnd.filter _
  · intro results secs h
    exact forall2_section_path results secs
      (optionMapList_forall2 pdfSection results secs h)
  · intro issues tbl h
    unfold pdfTableData at h
    rcases Option.map_eq_some'.1 h with ⟨rows, hrows, h2⟩
    rw [← h2]
    exact ⟨rfl, optionMapList_forall2 _ _ _ hrows⟩

/-- Witness for C8 at a concrete two-file run. -/
theorem results_order_preserved_witness :
    ((runScan okRead netEmpty ["a.html", "b.html"]).1.map Prod.fst
      = ["a.html", "b.html"])
    ∧ ((runScan okRead netEmpty ["a.html", "b.html"]).1.map Prod.fst).Nodup
    ∧ exSections.map PdfSection.path = ["a.html", "b.html"] :=
  ⟨((results_order_preserved okRead netEmpty ["a.html", "b.html"]).1).trans (by rfl),
   (results_order_preserved okRead netEmpty ["a.html", "b.html"]).2.2.1 (by decide),
   ((results_order_preserved okRead netEmpty ["a.html", "b.html"]).2.2.2.1
      exResults exSections rfl).trans (by rfl)⟩

/-! ## C3: find_supported_files -/

/-- Helper: no empty path points at a file. -/
theorem hasFileAt_nil : ∀ es : List FS, hasFileAt es [] = false
  | [] => by simp [hasFileAt]
  | .file n :: rest => by simp [hasFileAt, hasFileAt_nil rest]
  | .dir d cs :: rest => by simp [hasFileAt, hasFileAt_nil rest]

/-- Helper: a path whose head matches no entry name points at nothing. -/
theorem hasFileAt_head_ne (hd : String) :
    ∀ (es : List FS) (tl : List String),
      (∀ e ∈ es, entryName e ≠ hd) → hasFileAt es (hd :: tl) = false
  | [], _, _ => by simp [hasFileAt]
  | .file n :: rest, tl, h => by
    have hn : n ≠ hd := h (.file n) (List.mem_cons_self _ _)
    have hrest := hasFileAt_head_ne hd rest tl
      (fun e he => h e (List.mem_cons_of_mem _ he))
    have hne : ¬(hd :: tl = [n]) :=
      fun he => hn (by injection he with h1 _; exact h1.symm)
    simp [hasFileAt, hne, hrest]
  | .dir d cs :: rest, tl, h => by
    have hn : d ≠ hd := h (.dir d cs) (List.mem_cons_self _ _)
    have hrest := hasFileAt_head_ne hd rest tl
      (fun e he => h e (List.mem_cons_of_mem _ he))
    cases tl with
    | nil => simp [hasFileAt, hrest]
    | cons t ts =>
      simp only [hasFileAt, hrest, Bool.or_false]
      simp only [Bool.and_eq_false_iff, decide_eq_false_iff_not]
      exact Or.inl (fun he => hn he.symm)

/-- Helper: every kept file of a directory lies strictly below it. -/
theorem keptFiles_shape (cfg : Config) (path : List String) :
    ∀ (es : List FS), ∀ x ∈ keptFiles cfg path es, ∃ q, q ≠ [] ∧ x = path ++ q
  | [], x, hx => absurd hx (by simp [keptFiles])
  | .file n :: rest, x, hx => by
    simp only [keptFiles] at hx
    rcases List.mem_append.1 hx with h | h
    · by_cases hk : keepFile cfg n
      · rw [if_pos hk] at h
        rcases List.mem_singleton.1 h with rfl
        exact ⟨[n], by simp, rfl⟩
      · rw [if_neg hk] at h
        exact absurd h (List.not_mem_nil x)
    · exact keptFiles_shape cfg path rest x h
  | .dir d cs :: rest, x, hx =>
    keptFiles_shape cfg path rest x (by simpa [keptFiles] using hx)

/-- Helper: every file of the walk below a directory lies strictly below
it. -/
theorem walkSub_shape (cfg : Config) :
    ∀ (path : List String) (es : List FS) (x : List String),
      x ∈ walkSub cfg path es → ∃ q, q ≠ [] ∧ x = path ++ q
  | _, [], x, h => absurd h (by simp [walkSub])
  | path, .file n :: rest, x, h =>
    walkSub_shape cfg path rest x (by simpa [walkSub] using h)
  | path, .dir d cs :: rest, x, h => by
    simp only [walkSub, List.mem_append] at h
    rcases h with h | h
    · by_cases hk : keepDir cfg d
      · rw [if_pos hk] at h
        rcases List.mem_append.1 h with h1 | h2
        · obtain ⟨q, hq, hx⟩ := keptFiles_shape cfg (path ++ [d]) cs x h1
          exact ⟨d :: q, by simp, by rw [hx, List.append_assoc]; rfl⟩
        · obtain ⟨q, hq, hx⟩ := walkSub_shape cfg (path ++ [d]) cs x h2
          exact ⟨d :: q, by simp, by rw [hx, List.append_assoc]; rfl⟩
      · rw [if_neg hk] at h
        exact absurd h (List.not_mem_nil x)
    · exact walkSub_shape cfg path rest x h

/-- Helper: every file of the whole walk lies strictly below its root. -/
theorem walkAll_shape (cfg : Config) (path : List String) (es : List FS) :
    ∀ x ∈ walkAll cfg path es, ∃ q, q ≠ [] ∧ x = path ++ q := by
  intro x hx
  rcases List.mem_append.1 (by simpa [walkAll] using hx) with h | h
  · exact keptFiles_shape cfg path es x h
  · exact walkSub_shape cfg path es x h

/-- Helper: over a tree with distinct sibling names, the walk lists a
path once when it points at a kept file below kept directories, zero
times otherwise. -/
theorem walkAll_count (cfg : Config) :
    ∀ (path : List String) (es : List FS), nodupTree es = true →
      ∀ p : List String,
        (walkAll cfg path es).count (path ++ p)
          = if hasFileAt es p && pathSelected cfg p then 1 else 0
  | path, [], _, p => by
    simp [walkAll, keptFiles, walkSub, hasFileAt]
  | path, .file n :: rest, hnd, p => by
    simp only [nodupTree, Bool.and_eq_true, Bool.not_eq_true'] at hnd
    obtain ⟨hname, hrest⟩ := hnd
    have hni : ∀ e ∈ rest, entryName e ≠ n := by
      intro e he hc
      have h4 : rest.any (fun e => entryName e == n) = true :=
        List.any_eq_true.2 ⟨e, he, by simp [hc]⟩
      rw [hname] at h4
      exact Bool.noConfusion h4
    have hsplit : walkAll cfg path (.file n :: rest)
        = (if keepFile cfg n then [path ++ [n]] else [])
          ++ walkAll cfg path rest := by
      simp [walkAll, keptFiles, walkSub, List.append_assoc]
    rw [hsplit, List.count_append]
    by_cases hp : p = [n]
    · subst hp
      have h0 : (walkAll cfg path rest).count (path ++ [n]) = 0 := by
        rw [walkAll_count cfg path rest hrest [n],
          hasFileAt_head_ne n rest [] hni]
        simp
      rw [h0]
      by_cases hk : keepFile cfg n
      · rw [if_pos hk]
        simp [hasFileAt, pathSelected, hk, List.count_cons]
      · rw [if_neg hk]
        simp [hasFileAt, pathSelected, hk]
    · have hne : ¬(path ++ [n] = path ++ p) :=
        fun hE => hp (List.append_cancel_left hE).symm
      have h0 : (if keepFile cfg n then [path ++ [n]] else []).count (path ++ p)
          = 0 := by
        by_cases hk : keepFile cfg n
        · rw [if_pos hk]
          simp only [List.count_cons, List.count_nil,
            beq_eq_false_iff_ne.2 hne, if_false]
          rfl
        · rw [if_neg hk]; rfl
      rw [h0, walkAll_count cfg path rest hrest p]
      simp [hasFileAt, hp]
  | path, .dir d cs :: rest, hnd, p => by
    simp only [nodupTree, Bool.and_eq_true, Bool.not_eq_true'] at hnd
    obtain ⟨⟨hname, hcs⟩, hrest⟩ := hnd
    have hni : ∀ e ∈ rest, entryName e ≠ d := by
      intro e he hc
      have h4 : rest.any (fun e => entryName e == d) = true :=
        List.any_eq_true.2 ⟨e, he, by simp [hc]⟩
      rw [hname] at h4
      exact Bool.noConfusion h4
    have hsplit : (walkAll cfg path (.dir d cs :: rest)).count (path ++ p)
        = (if keepDir cfg d then walkAll cfg (path ++ [d]) cs else []).count (path ++ p)
          + (walkAll cfg path rest).count (path ++ p) := by
      by_cases hk : keepDir cfg d
      · simp [walkAll, keptFiles, walkSub, List.count_append, hk]
        omega
      · simp [walkAll, keptFiles, walkSub, List.count_append, hk]
    rw [hsplit]
    cases p with
    | nil =>
      have h1 : (if keepDir cfg d then walkAll cfg (path ++ [d]) cs else []).count
          (path ++ []) = 0 := by
        by_cases hk : keepDir cfg d
        · rw [if_pos hk]
          refine List.count_eq_zero.2 (fun hmem => ?_)
          obtain ⟨q, hq, hxq⟩ := walkAll_shape cfg (path ++ [d]) cs _ hmem
          have hlen := congrArg List.length hxq
          have hpos := List.length_pos.2 hq
          simp only [List.length_append, List.length_nil, List.length_cons] at hlen
          omega
        · simp [hk]
      rw [h1, walkAll_count cfg path rest hrest []]
      simp [hasFileAt, pathSelected]
    | cons x q =>
      by_cases hxd : x = d
      · subst hxd
        cases q with
        | nil =>
          have h1 : (if keepDir cfg x then walkAll cfg (path ++ [x]) cs else []).count
              (path ++ [x]) = 0 := by
            by_cases hk : keepDir cfg x
            · rw [if_pos hk]
              refine List.count_eq_zero.2 (fun hmem => ?_)
              obtain ⟨q', hq', hxq⟩ := walkAll_shape cfg (path ++ [x]) cs _ hmem
              rw [List.append_assoc] at hxq
              have h2 := List.append_cancel_left hxq
              have hlen := congrArg List.length h2
              have hpos := List.length_pos.2 hq'
              simp only [List.length_append, List.length_nil, List.length_cons] at hlen
              omega
            · simp [hk]
          rw [h1, walkAll_count cfg path rest hrest [x],
            hasFileAt_head_ne x rest [] hni]
          simp [hasFileAt, hasFileAt_head_ne x rest [] hni]
        | cons q1 qrest =>
          have hq0 : hasFileAt rest (x :: q1 :: qrest) = false :=
            hasFileAt_head_ne x rest _ hni
          have hrw : path ++ (x :: q1 :: qrest) = (path ++ [x]) ++ (q1 :: qrest) := by
            simp
          have h2 : (walkAll cfg path rest).count (path ++ (x :: q1 :: qrest)) = 0 := by
            rw [walkAll_count cfg path rest hrest (x :: q1 :: qrest), hq0]
            simp
          rw [h2]
          by_cases hk : keepDir cfg x
          · rw [if_pos hk, hrw,
              walkAll_count cfg (path ++ [x]) cs hcs (q1 :: qrest)]
            simp [hasFileAt, pathSelected, hq0, hk]
          · rw [if_neg hk]
            simp [hasFileAt, pathSelected, hq0, hk]
      · have h1 : (if keepDir cfg d then walkAll cfg (path ++ [d]) cs else []).count
            (path ++ (x :: q)) = 0 := by
          by_cases hk : keepDir cfg d
          · rw [if_pos hk]
            refine List.count_eq_zero.2 (fun hmem => ?_)
            obtain ⟨q', hq', hxq⟩ := walkAll_shape cfg (path ++ [d]) cs _ hmem
            rw [List.append_assoc] at hxq
            have h2 := List.append_cancel_left hxq
            injection h2 with h3 _
            exact hxd h3
          · simp [hk]
        rw [h1, walkAll_count cfg path rest hrest (x :: q)]
        cases q with
        | nil => simp [hasFileAt]
        | cons q1 qrest => simp [hasFileAt, hxd]

/-- C3: over any configuration and any tree with distinct sibling names,
find_supported_files lists a path exactly once iff it points at a file
whose name passes the extension and pattern filters and every directory
component on the way is neither hidden nor excluded (pruned directories
therefore exclude their whole subtree at any depth); all other paths
appear zero times. -/
theorem find_supported_files_count :
    ∀ (cfg : Config) (tree : List FS), nodupTree tree = true →
      ∀ p : List String,
        (find_supported_files cfg tree).count p
          = if hasFileAt tree p && pathSelected cfg p then 1 else 0 := by
  intro cfg tree h p
  have h2 := walkAll_count cfg [] tree h p
  simpa [find_supported_files] using h2

/-- Witness for C3 at the sample tree and the default configuration. -/
theorem find_supported_files_count_witness :
    nodupTree exTree = true
    ∧ (find_supported_files defaultConfig exTree).count ["a.html"] = 1
    ∧ (find_supported_files defaultConfig exTree).count ["a.stories.jsx"] = 0
    ∧ (find_supported_files defaultConfig exTree).count ["node_modules", "b.html"] = 0
    ∧ (find_supported_files defaultConfig exTree).count [".hidden", "c.html"] = 0
    ∧ (find_supported_files defaultConfig exTree).count ["src", "deep", "e.tsx"] = 1 := by
  have hnd : nodupTree exTree = true := by
    simp +decide [nodupTree, exTree, entryName]
  refine ⟨hnd, ?_, ?_, ?_, ?_, ?_⟩ <;>
    rw [find_supported_files_count defaultConfig exTree hnd] <;>
    simp +decide [hasFileAt, pathSelected, exTree]

end AAC
